import Mathlib

/-
Verification of the club-membership and election-voting workflow of the
student-services application (backend/routes/clubs.js, the election form
logic of src/components/Pages/Elections.jsx, and the spec-level election
core). Each definition is a shallow embedding of one source handler:
documents are plain structures, MongoDB ObjectIds are Nat, handler results
are Except values carrying the HTTP status code and message of the JSON
response. Handlers that the route reaches only after a successful
Club.findById are modelled from that point on (the 404 club-not-found
branch is the lookup itself). Persisted writes are recorded as an explicit
trace of DocWrite events, one event per awaited save/update call.
-/

deriving instance DecidableEq for Except

namespace Pro12

/-- An error response: HTTP status code and message of the JSON body. -/
structure ApiError where
  code : Nat
  message : String
  deriving Repr, DecidableEq

/-- One persisted document write: a club.save() or a User update call. -/
inductive DocWrite where
  | clubSave
  | userUpdate
  deriving Repr, DecidableEq

/-- Membership subdocument embedded in a club (clubs.js push on join).
The id field is the mongoose subdocument _id used by members.id(memberId). -/
structure Membership where
  id : Nat
  user : Nat
  fullName : String
  department : String
  year : String
  background : String := ""
  role : String := "member"
  status : String
  deriving Repr, DecidableEq

/-- Club document (backend/models/Club via routes/clubs.js). Fields the
modelled handlers never read (events, leadership, socialMedia) are omitted. -/
structure Club where
  id : Nat
  name : String
  description : String := ""
  category : String := ""
  founded : String := ""
  image : String := ""
  contactEmail : String := ""
  meetingSchedule : String := ""
  requirements : String := ""
  status : String
  members : List Membership := []
  deriving Repr, DecidableEq

/-- User document (backend/models/User.js): the back-reference sets
joinedClubs and votedElections, stored as arrays of ObjectIds. -/
structure User where
  id : Nat
  joinedClubs : List Nat := []
  votedElections : List Nat := []
  deriving Repr, DecidableEq

/-- Case-insensitive character match for one regex atom: '.' matches any
character, any other pattern character matches up to case (the 'i' flag). -/
def charMatch (pc c : Char) : Bool :=
  pc = '.' || pc.toLower = c.toLower

/-- Whole-string matcher for the fragment of JavaScript regular expressions
that a club name can inject into new RegExp("^" ++ name ++ "$", "i"):
literal characters, '.' (any character), and '+' (one or more of the
preceding atom), matched case-insensitively against the entire string
(the explicit anchors make the JS test a full match). -/
def reMatch (p s : List Char) : Bool :=
  match s, p with
  | [], q => q.isEmpty
  | _ :: _, [] => false
  | c :: cs, pc :: '+' :: ps =>
      if charMatch pc c then reMatch (pc :: '+' :: ps) cs || reMatch ps cs
      else false
  | c :: cs, pc :: ps => charMatch pc c && reMatch ps cs

/-- Club.findOne name test of clubs.js: the candidate name is spliced
unescaped into an anchored case-insensitive regex and run over the stored
club name. -/
def nameRegexMatches (name target : String) : Bool :=
  reMatch name.toList target.toList

/-- Spec-side notion of "names equal up to letter case": the two names
agree character by character after lowercasing. -/
def eqIgnoreCase (a b : String) : Bool :=
  a.toList.map Char.toLower = b.toList.map Char.toLower

/-- Request body of POST /api/clubs. The status field records whatever
status value the request body carried; the handler never reads it. -/
structure CreateClubReq where
  name : String
  description : String := ""
  category : String := ""
  founded : String := ""
  image : String := ""
  contactEmail : String := ""
  meetingSchedule : String := ""
  requirements : String := ""
  status : String := ""
  deriving Repr, DecidableEq

/-- POST /api/clubs (clubs.js 129-166): reject when the unescaped anchored
case-insensitive regex built from the requested name matches an existing
club name, otherwise create the club with status hard-coded to active. -/
def createClub (clubs : List Club) (req : CreateClubReq) (newId : Nat) :
    Except ApiError (List Club × Club) :=
  if clubs.any (fun c => nameRegexMatches req.name c.name) then
    .error ⟨400, "Club with this name already exists"⟩
  else
    let club : Club :=
      { id := newId, name := req.name, description := req.description,
        category := req.category, founded := req.founded, image := req.image,
        contactEmail := req.contactEmail, meetingSchedule := req.meetingSchedule,
        requirements := req.requirements, status := "active", members := [] }
    .ok (clubs ++ [club], club)

/-- Request body of PUT /api/clubs/:id — every field optional. -/
structure UpdateClubReq where
  name : Option String := none
  description : Option String := none
  category : Option String := none
  image : Option String := none
  contactEmail : Option String := none
  meetingSchedule : Option String := none
  requirements : Option String := none
  status : Option String := none
  deriving Repr, DecidableEq

/-- PUT /api/clubs/:id (clubs.js 171-221), from the point the club was
found: when a new name differs from the current one, reject if the regex
built from it matches any other club's name; then apply every supplied
field. -/
def updateClub (clubs : List Club) (club : Club) (req : UpdateClubReq) :
    Except ApiError Club :=
  let nameConflict :=
    match req.name with
    | none => false
    | some n =>
        n ≠ club.name &&
        clubs.any (fun c => c.id ≠ club.id && nameRegexMatches n c.name)
  if nameConflict then
    .error ⟨400, "Club with this name already exists"⟩
  else
    .ok { club with
      name := (req.name).getD club.name,
      description := (req.description).getD club.description,
      category := (req.category).getD club.category,
      image := (req.image).getD club.image,
      contactEmail := (req.contactEmail).getD club.contactEmail,
      meetingSchedule := (req.meetingSchedule).getD club.meetingSchedule,
      requirements := (req.requirements).getD club.requirements,
      status := (req.status).getD club.status }

/-- POST /api/clubs/:id/join (clubs.js 260-325), from the point the club
was found: require the three mandatory body fields, require the club to be
active, reject when any membership for the user already exists (a pending
one with its own message, any other with the already-a-member message),
otherwise push a new pending membership and save the club (one write). -/
def requestJoin (club : Club) (userId : Nat)
    (fullName department year background : String) (newMemberId : Nat) :
    Except ApiError (Club × List DocWrite) :=
  if fullName = "" || department = "" || year = "" then
    .error ⟨400, "Full name, department, and year are required"⟩
  else if club.status ≠ "active" then
    .error ⟨400, "Cannot join inactive club"⟩
  else
    match club.members.find? (fun m => m.user = userId) with
    | some m =>
        if m.status = "pending" then
          .error ⟨400, "Your join request is already pending approval"⟩
        else
          .error ⟨400, "You are already a member of this club"⟩
    | none =>
        .ok ({ club with
                members := club.members ++
                  [{ id := newMemberId, user := userId, fullName := fullName,
                     department := department, year := year,
                     background := background, role := "member",
                     status := "pending" }] },
             [DocWrite.clubSave])

/-- Mutation performed through club.members.id(memberId): set the status
of the (unique) membership with the given subdocument id. -/
def setMemberStatus (memberId : Nat) (st : String) :
    List Membership → List Membership
  | [] => []
  | m :: ms =>
      if m.id = memberId then { m with status := st } :: ms
      else m :: setMemberStatus memberId st ms

/-- MongoDB $addToSet on joinedClubs: append the club id only if absent. -/
def addToSetJoined (clubId : Nat) (u : User) : User :=
  if clubId ∈ u.joinedClubs then u
  else { u with joinedClubs := u.joinedClubs ++ [clubId] }

/-- PATCH /api/clubs/:id/members/:memberId/approve (clubs.js 330-367), from
the point the club was found: 404 when the membership id is absent;
otherwise set its status to approved, save the club, and then issue a
second write adding the club id to that user's joinedClubs via $addToSet. -/
def approveMember (club : Club) (memberId : Nat) (users : List User) :
    Except ApiError (Club × List User × List DocWrite) :=
  match club.members.find? (fun m => m.id = memberId) with
  | none => .error ⟨404, "Member not found"⟩
  | some m =>
      .ok ({ club with members := setMemberStatus memberId "approved" club.members },
           users.map (fun u => if u.id = m.user then addToSetJoined club.id u else u),
           [DocWrite.clubSave, DocWrite.userUpdate])

/-- PATCH /api/clubs/:id/members/:memberId/reject (clubs.js 372-404), from
the point the club was found: set the membership status to rejected and
save the club; no user document is touched. -/
def rejectMember (club : Club) (memberId : Nat) :
    Except ApiError (Club × List DocWrite) :=
  match club.members.find? (fun m => m.id = memberId) with
  | none => .error ⟨404, "Member not found"⟩
  | some _ =>
      .ok ({ club with members := setMemberStatus memberId "rejected" club.members },
           [DocWrite.clubSave])

/-- JavaScript Array.findIndex over the members array, as an Option index
(the -1 branch of the source is the none case). -/
def findMemberIdx (userId : Nat) : List Membership → Option Nat
  | [] => none
  | m :: ms =>
      if m.user = userId then some 0
      else (findMemberIdx userId ms).map (· + 1)

/-- MongoDB $pull of the club id from joinedClubs: drop every occurrence. -/
def pullJoined (clubId : Nat) (u : User) : User :=
  { u with joinedClubs := u.joinedClubs.filter (fun c => c ≠ clubId) }

/-- POST /api/clubs/:id/leave (clubs.js 438-477), from the point the club
was found: 400 when the user has no membership entry; otherwise splice out
the entry at the found index, save the club, and then issue a second write
pulling the club id from the user's joinedClubs. -/
def leaveClub (club : Club) (userId : Nat) (users : List User) :
    Except ApiError (Club × List User × List DocWrite) :=
  match findMemberIdx userId club.members with
  | none => .error ⟨400, "You are not a member of this club"⟩
  | some i =>
      .ok ({ club with members := club.members.eraseIdx i },
           users.map (fun u => if u.id = userId then pullJoined club.id u else u),
           [DocWrite.clubSave, DocWrite.userUpdate])

/-- Candidate entry of the election-creation form (Elections.jsx state
newCandidate plus the fields handleAddCandidate fills in on add). -/
structure FormCandidate where
  name : String
  department : String
  academicYear : String
  profileImage : String
  votes : Nat
  position : String
  username : String
  platform : List String
  deriving Repr, DecidableEq

/-- Fields of the newCandidate form state (profileImage empty when no file
was chosen — the falsy null of the source). -/
structure NewCandidateForm where
  name : String
  department : String
  academicYear : String
  profileImage : String
  deriving Repr, DecidableEq

/-- handleAddCandidate (Elections.jsx 62-85): require the four fields,
then append a candidate initialised with votes = 0, position President, a
timestamp-derived username and the default platform list; the timestamp of
Date.now() is a parameter. -/
def handleAddCandidate (prev : List FormCandidate) (nc : NewCandidateForm)
    (now : Nat) : Except String (List FormCandidate) :=
  if nc.name = "" || nc.department = "" || nc.academicYear = "" ||
      nc.profileImage = "" then
    .error "Candidate name, department, academic year, and image are required"
  else
    .ok (prev ++
      [{ name := nc.name, department := nc.department,
         academicYear := nc.academicYear,
         profileImage :=
           if nc.profileImage = "" then
             "https://images.pexels.com/photos/3763188/pexels-photo-3763188.jpeg?auto=compress&cs=tinysrgb&w=400"
           else nc.profileImage,
         votes := 0, position := "President",
         username := "dbu" ++ toString (now % 100000000),
         platform := ["Student Welfare", "Academic Excellence"] }])

/-- Election-creation form state (Elections.jsx newElection). -/
structure NewElectionForm where
  title : String
  description : String
  startDate : String
  endDate : String
  candidates : List FormCandidate
  deriving Repr, DecidableEq

/-- Payload handleCreateElection sends to the elections API. -/
structure ElectionData where
  title : String
  description : String
  startDate : String
  endDate : String
  candidates : List FormCandidate
  status : String
  totalVotes : Nat
  eligibleVoters : Nat
  deriving Repr, DecidableEq

/-- handleCreateElection (Elections.jsx 98-134): refuse fewer than two
candidates, refuse non-admins, otherwise build the election payload with
status Pending, totalVotes 0 and the fixed eligibleVoters figure. -/
def handleCreateElection (form : NewElectionForm) (isAdmin : Bool) :
    Except String ElectionData :=
  if form.candidates.length < 2 then
    .error "At least two candidates are required"
  else if !isAdmin then
    .error "Only admins can create elections"
  else
    .ok { title := form.title, description := form.description,
          startDate := form.startDate, endDate := form.endDate,
          candidates := form.candidates, status := "Pending",
          totalVotes := 0, eligibleVoters := 12547 }

/-- Candidate subdocument of a stored election: identity and its vote
counter (the display fields are irrelevant to the vote and tally logic). -/
structure Candidate where
  id : Nat
  name : String := ""
  votes : Nat
  deriving Repr, DecidableEq

/-- Election document as the vote handler sees it. -/
structure Election where
  id : Nat
  title : String := ""
  candidates : List Candidate
  totalVotes : Nat
  status : String := "Pending"
  deriving Repr, DecidableEq

/-- Modelled from the spec: the backend vote route POST
/api/elections/:id/vote is not under src/ (only its frontend caller
handleVote and the api.js request are). Following section 4.2, CastVote
fails with NotFound when the candidate is absent, with Conflict when the
user's votedElections already contains the election, and otherwise
increments the chosen candidate's votes and the election's totalVotes by
one and adds the election id to the user's votedElections. -/
def castVote (e : Election) (u : User) (candidateId : Nat) :
    Except ApiError (Election × User) :=
  match e.candidates.find? (fun c => c.id = candidateId) with
  | none => .error ⟨404, "Candidate not found"⟩
  | some _ =>
      if e.id ∈ u.votedElections then
        .error ⟨409, "You have already voted in this election"⟩
      else
        .ok ({ e with
                candidates := e.candidates.map (fun c =>
                  if c.id = candidateId then { c with votes := c.votes + 1 } else c),
                totalVotes := e.totalVotes + 1 },
             { u with votedElections := u.votedElections ++ [e.id] })

/-- Modelled from the spec: insert a candidate into an already ranked list,
before the first entry with strictly fewer votes, so earlier-inserted
candidates stay ahead of later ones with the same votes. -/
def insertRanked (c : Candidate) : List Candidate → List Candidate
  | [] => [c]
  | d :: ds => if d.votes ≤ c.votes then c :: d :: ds else d :: insertRanked c ds

/-- Modelled from the spec: the result-display ranking (section 4.2, tally
ordering) is not under src/; rank candidates by votes descending with a
stable insertion sort so that ties keep candidate insertion order. -/
def rankCandidates : List Candidate → List Candidate
  | [] => []
  | c :: cs => insertRanked c (rankCandidates cs)

/-- Fixture: an active club with one pending membership (subdocument id 1,
user 5). -/
def fixClubPending : Club :=
  { id := 30, name := "Chess Club", status := "active",
    members := [{ id := 1, user := 5, fullName := "Abel", department := "CS",
                  year := "2nd Year", status := "pending" }] }

/-- Fixture: the single user referenced by fixClubPending's membership. -/
def fixUsers : List User := [{ id := 5 }]

/-- Fixture: an active club whose only membership for user 7 was rejected. -/
def fixClubRejected : Club :=
  { id := 31, name := "Drama Club", status := "active",
    members := [{ id := 2, user := 7, fullName := "Sara", department := "Law",
                  year := "3rd Year", status := "rejected" }] }

/-- Fixture: a club still awaiting approval, hence not joinable. -/
def fixClubInactive : Club :=
  { id := 32, name := "Robotics Club", status := "pending_approval" }

/-- Fixture: an active club with one approved membership (user 5) whose
user holds the matching back-reference. -/
def fixClubLeave : Club :=
  { id := 33, name := "Hiking Club", status := "active",
    members := [{ id := 3, user := 5, fullName := "Abel", department := "CS",
                  year := "2nd Year", status := "approved" }] }

/-- Fixture: users list for the leave scenario. -/
def fixLeaveUsers : List User := [{ id := 5, joinedClubs := [33] }]

/-- Fixture: an election with two fresh candidates. -/
def fixElection : Election :=
  { id := 10, candidates := [{ id := 1, name := "X", votes := 0 },
                             { id := 2, name := "Y", votes := 0 }],
    totalVotes := 0 }

/-- Fixture: a voter who has not voted in any election. -/
def fixVoter : User := { id := 5 }

/-- Fixture: an existing club whose name contains a regex metacharacter. -/
def fixClubLower : Club := { id := 1, name := "a+b", status := "active" }

/-- Fixture: a create request whose name equals "a+b" up to letter case. -/
def fixReqUpper : CreateClubReq := { name := "A+B" }

/-- Fixture: a complete two-candidate election form. -/
def fixForm : NewElectionForm :=
  { title := "Union President", description := "Annual vote",
    startDate := "2025-01-01", endDate := "2025-01-07",
    candidates := [{ name := "X", department := "CS", academicYear := "2nd Year",
                     profileImage := "x.png", votes := 0, position := "President",
                     username := "dbu1", platform := [] },
                   { name := "Y", department := "Law", academicYear := "3rd Year",
                     profileImage := "y.png", votes := 0, position := "President",
                     username := "dbu2", platform := [] }] }

/-- Fixture: fixClubPending after its membership is approved. -/
def fixApprovedClub : Club :=
  { fixClubPending with
    members := [{ id := 1, user := 5, fullName := "Abel", department := "CS",
                  year := "2nd Year", status := "approved" }] }

/-- Fixture: fixUsers after user 5 gains the club 30 back-reference. -/
def fixApprovedUsers : List User := [{ id := 5, joinedClubs := [30] }]

/-- Fixture: the club the duplicate-name check fails to stop. -/
def fixCreatedUpper : Club := { id := 2, name := "A+B", status := "active" }

/-- Fixture: the election payload handleCreateElection builds from
fixForm. -/
def fixElectionData : ElectionData :=
  { title := "Union President", description := "Annual vote",
    startDate := "2025-01-01", endDate := "2025-01-07",
    candidates := fixForm.candidates, status := "Pending",
    totalVotes := 0, eligibleVoters := 12547 }

/-- Fixture: the candidate list handleAddCandidate builds from an empty
form at timestamp 123. -/
def fixAddList : List FormCandidate :=
  [{ name := "Z", department := "CS", academicYear := "1st Year",
     profileImage := "z.png", votes := 0, position := "President",
     username := "dbu123",
     platform := ["Student Welfare", "Academic Excellence"] }]

/-- Fixture: a create request that tries to smuggle in a status value. -/
def fixReqStatus : CreateClubReq := { name := "N", status := "pending_approval" }

/-- Fixture: the club created from fixReqStatus — status forced to
active. -/
def fixCreatedN : Club := { id := 1, name := "N", status := "active" }

section Lemmas

/-- Splitting a list by a predicate preserves total length. -/
theorem length_filter_split {α : Type} (p : α → Bool) (l : List α) :
    (l.filter p).length + (l.filter (fun a => !(p a))).length = l.length := by
  induction l with
  | nil => rfl
  | cons a l ih =>
      by_cases h : p a <;> simp [List.filter_cons, h, Nat.succ_eq_add_one] <;> omega

/-- setMemberStatus rewrites the status of the membership that find?
locates by subdocument id, and find? then returns the rewritten entry. -/
theorem find?_setMemberStatus (mid : Nat) (st : String) (l : List Membership)
    (m : Membership) (h : l.find? (fun x => x.id = mid) = some m) :
    (setMemberStatus mid st l).find? (fun x => x.id = mid) =
      some { m with status := st } := by
  induction l with
  | nil => simp [List.find?] at h
  | cons a l ih =>
      by_cases ha : a.id = mid
      · rw [List.find?_cons_of_pos _ (by simpa using ha)] at h
        injection h with h
        subst h
        simp only [setMemberStatus, if_pos ha]
        exact List.find?_cons_of_pos _ (by simpa using ha)
      · rw [List.find?_cons_of_neg _ (by simpa using ha)] at h
        simp only [setMemberStatus, if_neg ha]
        rw [List.find?_cons_of_neg _ (by simpa using ha)]
        exact ih h

/-- The club id is present after an $addToSet of that id. -/
theorem mem_addToSetJoined (cid : Nat) (u : User) :
    cid ∈ (addToSetJoined cid u).joinedClubs := by
  by_cases h : cid ∈ u.joinedClubs <;> simp [addToSetJoined, h]

/-- $addToSet does not change the user's identity. -/
theorem addToSetJoined_id (cid : Nat) (u : User) :
    (addToSetJoined cid u).id = u.id := by
  by_cases h : cid ∈ u.joinedClubs <;> simp [addToSetJoined, h]

/-- $addToSet is the identity once the club id is present. -/
theorem addToSetJoined_of_mem (cid : Nat) (u : User)
    (h : cid ∈ u.joinedClubs) : addToSetJoined cid u = u := by
  simp [addToSetJoined, h]

/-- Starting from at most one occurrence, $addToSet leaves exactly one. -/
theorem count_addToSetJoined (cid : Nat) (u : User)
    (h : u.joinedClubs.count cid ≤ 1) :
    (addToSetJoined cid u).joinedClubs.count cid = 1 := by
  by_cases hm : cid ∈ u.joinedClubs
  · have h1 : 0 < u.joinedClubs.count cid := List.count_pos_iff.mpr hm
    simp only [addToSetJoined, if_pos hm]
    omega
  · have h0 : u.joinedClubs.count cid = 0 := List.count_eq_zero_of_not_mem hm
    simp [addToSetJoined, hm, List.count_append, h0]

/-- findMemberIdx misses exactly when no membership belongs to the user. -/
theorem findMemberIdx_eq_none (uid : Nat) (l : List Membership) :
    findMemberIdx uid l = none ↔ ∀ m ∈ l, m.user ≠ uid := by
  induction l with
  | nil => simp [findMemberIdx]
  | cons a l ih =>
      by_cases ha : a.user = uid <;>
        simp [findMemberIdx, ha, Option.map_eq_none, ih]

/-- When the user owns exactly one membership entry, the source's
findIndex-then-splice removes precisely that entry: the spliced list is the
original with the user's entries filtered out. -/
theorem eraseIdx_findMemberIdx (uid : Nat) (l : List Membership)
    (h : (l.filter (fun m => m.user = uid)).length = 1) :
    ∃ i, findMemberIdx uid l = some i ∧
      l.eraseIdx i = l.filter (fun m => m.user ≠ uid) := by
  induction l with
  | nil => simp [List.filter_nil] at h
  | cons a l ih =>
      by_cases ha : a.user = uid
      · refine ⟨0, by simp [findMemberIdx, ha], ?_⟩
        have hnil : l.filter (fun m => decide (m.user = uid)) = [] := by
          rw [List.filter_cons_of_pos (by simpa using ha)] at h
          simpa [List.length_eq_zero] using h
        have hall : ∀ m ∈ l, m.user ≠ uid := by
          intro m hm
          have := (List.filter_eq_nil_iff).mp hnil m hm
          simpa using this
        rw [List.eraseIdx_cons_zero,
            List.filter_cons_of_neg (by simpa using ha)]
        exact ((List.filter_eq_self).mpr (by intro m hm; simpa using hall m hm)).symm
      · rw [List.filter_cons_of_neg (by simpa using ha)] at h
        obtain ⟨i, hi, he⟩ := ih h
        refine ⟨i + 1, by simp [findMemberIdx, ha, hi], ?_⟩
        rw [List.eraseIdx_cons_succ,
            List.filter_cons_of_pos (by simpa using ha), he]

/-- insertRanked produces a permutation: the new element is merely moved
forward past larger-vote entries. -/
theorem insertRanked_perm (c : Candidate) (l : List Candidate) :
    List.Perm (insertRanked c l) (c :: l) := by
  induction l with
  | nil => simp [insertRanked]
  | cons d ds ih =>
      by_cases hle : d.votes ≤ c.votes
      · simp [insertRanked, hle]
      · simp only [insertRanked, if_neg hle]
        exact (List.Perm.cons d ih).trans (List.Perm.swap c d ds)

/-- rankCandidates permutes its input. -/
theorem rankCandidates_perm (l : List Candidate) :
    List.Perm (rankCandidates l) l := by
  induction l with
  | nil => simp [rankCandidates]
  | cons c cs ih =>
      exact (insertRanked_perm c (rankCandidates cs)).trans (List.Perm.cons c ih)

/-- insertRanked keeps the list sorted by votes descending. -/
theorem insertRanked_sorted (c : Candidate) (l : List Candidate)
    (h : l.Pairwise (fun a b => b.votes ≤ a.votes)) :
    (insertRanked c l).Pairwise (fun a b => b.votes ≤ a.votes) := by
  induction l with
  | nil => simp [insertRanked]
  | cons d ds ih =>
      rcases List.pairwise_cons.mp h with ⟨hd, hds⟩
      by_cases hle : d.votes ≤ c.votes
      · simp only [insertRanked, if_pos hle]
        refine List.pairwise_cons.mpr ⟨?_, h⟩
        intro x hx
        rcases List.mem_cons.mp hx with rfl | hx
        · exact hle
        · exact le_trans (hd x hx) hle
      · simp only [insertRanked, if_neg hle]
        refine List.pairwise_cons.mpr ⟨?_, ih hds⟩
        intro x hx
        have hx' : x ∈ c :: ds := (insertRanked_perm c ds).mem_iff.mp hx
        rcases List.mem_cons.mp hx' with rfl | hx'
        · exact le_of_not_le hle
        · exact hd x hx'

/-- rankCandidates is sorted by votes descending. -/
theorem rankCandidates_sorted (l : List Candidate) :
    (rankCandidates l).Pairwise (fun a b => b.votes ≤ a.votes) := by
  induction l with
  | nil => simp [rankCandidates]
  | cons c cs ih => exact insertRanked_sorted c (rankCandidates cs) ih

/-- Stability of insertRanked, phrased through filters: for each vote
value, the sublist with that many votes gains c at the front when c has
that value, and is untouched otherwise. -/
theorem filter_insertRanked (c : Candidate) (l : List Candidate) (v : Nat) :
    (insertRanked c l).filter (fun d => d.votes = v) =
      if c.votes = v then c :: l.filter (fun d => d.votes = v)
      else l.filter (fun d => d.votes = v) := by
  induction l with
  | nil =>
      by_cases hc : c.votes = v <;> simp [insertRanked, List.filter_cons, hc]
  | cons d ds ih =>
      by_cases hle : d.votes ≤ c.votes
      · simp only [insertRanked, if_pos hle]
        by_cases hc : c.votes = v <;> simp [List.filter_cons, hc]
      · have hlt : c.votes < d.votes := Nat.lt_of_not_le hle
        simp only [insertRanked, if_neg hle]
        by_cases hd : d.votes = v
        · have hc : ¬ c.votes = v := by omega
          simp [List.filter_cons, hd, hc, ih]
        · by_cases hc : c.votes = v <;> simp [List.filter_cons, hd, hc, ih]

/-- Stability of the ranking: for every vote value, candidates with that
value appear in the ranked output in their original insertion order. -/
theorem filter_rankCandidates (l : List Candidate) (v : Nat) :
    (rankCandidates l).filter (fun d => d.votes = v) =
      l.filter (fun d => d.votes = v) := by
  induction l with
  | nil => simp [rankCandidates]
  | cons c cs ih =>
      rw [rankCandidates, filter_insertRanked]
      by_cases hc : c.votes = v <;> simp [List.filter_cons, hc, ih]

end Lemmas

/-- C3 (amended): for an active club with valid body fields, RequestJoin
fails with Conflict whenever ANY membership for (club, user) already
exists, whatever its status: a pending membership gets its own message and
every other status (approved or rejected alike) gets the already-a-member
message; only when no membership exists does it append a new Membership
with status pending to the end of the members list, as the single saved
write. -/
theorem requestJoin_conflict_and_append
    (club : Club) (userId newMemberId : Nat)
    (fullName department year background : String)
    (hfn : fullName ≠ "") (hdep : department ≠ "") (hyr : year ≠ "")
    (hactive : club.status = "active") :
    (∀ m, club.members.find? (fun x => x.user = userId) = some m →
        (m.status = "pending" →
          requestJoin club userId fullName department year background newMemberId =
            .error ⟨400, "Your join request is already pending approval"⟩) ∧
        (m.status ≠ "pending" →
          requestJoin club userId fullName department year background newMemberId =
            .error ⟨400, "You are already a member of this club"⟩)) ∧
    (club.members.find? (fun x => x.user = userId) = none →
        requestJoin club userId fullName department year background newMemberId =
          .ok ({ club with members := club.members ++
            [{ id := newMemberId, user := userId, fullName := fullName,
               department := department, year := year, background := background,
               role := "member", status := "pending" }] }, [DocWrite.clubSave])) := by
  constructor
  · intro m hm
    constructor <;> intro hst <;>
      simp [requestJoin, hfn, hdep, hyr, hactive, hm, hst]
  · intro hm
    simp [requestJoin, hfn, hdep, hyr, hactive, hm]

/-- C3 witness: on the fixture club whose only membership for user 5 is
pending, a second join request fails with the pending-specific message. -/
theorem requestJoin_conflict_and_append_witness :
    requestJoin fixClubPending 5 "Abel" "CS" "2nd Year" "" 9 =
      .error ⟨400, "Your join request is already pending approval"⟩ :=
  ((requestJoin_conflict_and_append fixClubPending 5 9 "Abel" "CS" "2nd Year" ""
      (by decide) (by decide) (by decide) (by decide)).1
    { id := 1, user := 5, fullName := "Abel", department := "CS",
      year := "2nd Year", status := "pending" }
    (by decide)).1 (by decide)

/-- C3 counterexample: a membership with status rejected — neither pending
nor approved — still makes RequestJoin fail with Conflict, so the claim's
"exactly when the existing membership is pending or approved" is false on
the code. -/
theorem requestJoin_rejected_still_conflicts :
    requestJoin fixClubRejected 7 "Sara" "Law" "3rd Year" "" 9 =
      .error ⟨400, "You are already a member of this club"⟩ ∧
    fixClubRejected.status = "active" ∧
    (∀ m ∈ fixClubRejected.members,
        m.status ≠ "pending" ∧ m.status ≠ "approved") := by
  decide

/-- C2: after ApproveMember succeeds on a membership, that membership's
status is approved and the approved user's joinedClubs contains the club's
id; approving the same membership a second time succeeds again and, the
add being a $addToSet, leaves exactly one reference to the club in
joinedClubs (starting from at most one). -/
theorem approveMember_approves_and_adds_once
    (club : Club) (memberId : Nat) (users : List User) (m : Membership)
    (hm : club.members.find? (fun x => x.id = memberId) = some m)
    (hu : ∃ u ∈ users, u.id = m.user)
    (hcount : ∀ u ∈ users, u.id = m.user → u.joinedClubs.count club.id ≤ 1) :
    ∃ club1 users1,
      approveMember club memberId users =
        .ok (club1, users1, [DocWrite.clubSave, DocWrite.userUpdate]) ∧
      club1.members.find? (fun x => x.id = memberId) =
        some { m with status := "approved" } ∧
      (∃ u1 ∈ users1, u1.id = m.user) ∧
      (∀ u1 ∈ users1, u1.id = m.user → club.id ∈ u1.joinedClubs) ∧
      ∃ club2 users2,
        approveMember club1 memberId users1 =
          .ok (club2, users2, [DocWrite.clubSave, DocWrite.userUpdate]) ∧
        ∀ u2 ∈ users2, u2.id = m.user → u2.joinedClubs.count club.id = 1 := by
  have h2 := find?_setMemberStatus memberId "approved" club.members m hm
  have h1 : approveMember club memberId users =
      .ok ({ club with members := setMemberStatus memberId "approved" club.members },
           users.map (fun u => if u.id = m.user then addToSetJoined club.id u else u),
           [DocWrite.clubSave, DocWrite.userUpdate]) := by
    simp [approveMember, hm]
  have h3 : approveMember
      { club with members := setMemberStatus memberId "approved" club.members }
      memberId
      (users.map (fun u => if u.id = m.user then addToSetJoined club.id u else u)) =
      .ok ({ club with members := setMemberStatus memberId "approved" (setMemberStatus memberId "approved" club.members) },
           (users.map (fun u => if u.id = m.user then addToSetJoined club.id u else u)).map
             (fun u => if u.id = m.user then addToSetJoined club.id u else u),
           [DocWrite.clubSave, DocWrite.userUpdate]) := by
    simp [approveMember, h2]
  refine ⟨_, _, h1, h2, ?_, ?_, _, _, h3, ?_⟩
  · obtain ⟨u, hu', hid⟩ := hu
    refine ⟨if u.id = m.user then addToSetJoined club.id u else u,
            List.mem_map_of_mem _ hu', ?_⟩
    rw [if_pos hid, addToSetJoined_id, hid]
  · intro u1 h1' hid1
    rcases List.mem_map.mp h1' with ⟨u, hu', rfl⟩
    by_cases hic : u.id = m.user
    · rw [if_pos hic]
      exact mem_addToSetJoined club.id u
    · rw [if_neg hic] at hid1 ⊢
      exact absurd hid1 hic
  · intro u2 hu2 hid2
    rcases List.mem_map.mp hu2 with ⟨u1, hu1, rfl⟩
    rcases List.mem_map.mp hu1 with ⟨u, hu', rfl⟩
    by_cases hic : u.id = m.user
    · have hid1 : (addToSetJoined club.id u).id = m.user := by
        rw [addToSetJoined_id]; exact hic
      rw [if_pos hic, if_pos hid1,
          addToSetJoined_of_mem club.id _ (mem_addToSetJoined club.id u)]
      exact count_addToSetJoined club.id u (hcount u hu' hic)
    · rw [if_neg hic] at hid2 ⊢
      rw [if_neg hic] at hid2
      exact absurd hid2 hic

/-- C2 witness: approving the pending membership of the fixture club adds
club 30 to user 5's joinedClubs, and a second approval keeps exactly one
copy of the reference. -/
theorem approveMember_approves_and_adds_once_witness :
    ∃ club1 users1,
      approveMember fixClubPending 1 fixUsers =
        .ok (club1, users1, [DocWrite.clubSave, DocWrite.userUpdate]) ∧
      club1.members.find? (fun x => x.id = 1) =
        some { id := 1, user := 5, fullName := "Abel", department := "CS",
               year := "2nd Year", status := "approved" } ∧
      (∃ u1 ∈ users1, u1.id = 5) ∧
      (∀ u1 ∈ users1, u1.id = 5 → fixClubPending.id ∈ u1.joinedClubs) ∧
      ∃ club2 users2,
        approveMember club1 1 users1 =
          .ok (club2, users2, [DocWrite.clubSave, DocWrite.userUpdate]) ∧
        ∀ u2 ∈ users2, u2.id = 5 → u2.joinedClubs.count fixClubPending.id = 1 :=
  approveMember_approves_and_adds_once fixClubPending 1 fixUsers
    { id := 1, user := 5, fullName := "Abel", department := "CS",
      year := "2nd Year", status := "pending" }
    (by decide) ⟨{ id := 5 }, by simp [fixUsers], rfl⟩ (by decide)

/-- C4: for every club whose status is not active and every valid request
body, RequestJoin fails with the InvalidState response 400 "Cannot join
inactive club"; the error return carries no club document and no DocWrite,
so no Membership entry is created. -/
theorem requestJoin_inactive_fails
    (club : Club) (userId newMemberId : Nat)
    (fullName department year background : String)
    (hfn : fullName ≠ "") (hdep : department ≠ "") (hyr : year ≠ "")
    (hstatus : club.status ≠ "active") :
    requestJoin club userId fullName department year background newMemberId =
      .error ⟨400, "Cannot join inactive club"⟩ := by
  simp [requestJoin, hfn, hdep, hyr, hstatus]

/-- C4 witness: joining the pending_approval fixture club fails with the
inactive-club message. -/
theorem requestJoin_inactive_fails_witness :
    requestJoin fixClubInactive 5 "Abel" "CS" "2nd Year" "" 9 =
      .error ⟨400, "Cannot join inactive club"⟩ :=
  requestJoin_inactive_fails fixClubInactive 5 9 "Abel" "CS" "2nd Year" ""
    (by decide) (by decide) (by decide) (by decide)

/-- C5: when the user owns exactly one membership entry in the club,
LeaveClub removes exactly that one entry (the members list shrinks by one
and becomes the original with the user's entry dropped), removes the club
reference from the user's joinedClubs while leaving every other user
untouched, and a second LeaveClub for the same pair fails with the
InvalidState not-a-member response. -/
theorem leaveClub_removes_one_and_second_fails
    (club : Club) (userId : Nat) (users : List User)
    (h1 : (club.members.filter (fun m => m.user = userId)).length = 1) :
    ∃ club1 users1,
      leaveClub club userId users =
        .ok (club1, users1, [DocWrite.clubSave, DocWrite.userUpdate]) ∧
      club1.members = club.members.filter (fun m => m.user ≠ userId) ∧
      club1.members.length + 1 = club.members.length ∧
      (∀ u1 ∈ users1, u1.id = userId → club.id ∉ u1.joinedClubs) ∧
      (∀ u1 ∈ users1, u1.id ≠ userId → u1 ∈ users) ∧
      leaveClub club1 userId users1 =
        .error ⟨400, "You are not a member of this club"⟩ := by
  obtain ⟨i, hi, he⟩ := eraseIdx_findMemberIdx userId club.members h1
  have hok : leaveClub club userId users =
      .ok ({ club with members := club.members.eraseIdx i },
           users.map (fun u => if u.id = userId then pullJoined club.id u else u),
           [DocWrite.clubSave, DocWrite.userUpdate]) := by
    simp [leaveClub, hi]
  refine ⟨_, _, hok, he, ?_, ?_, ?_, ?_⟩
  · show (club.members.eraseIdx i).length + 1 = club.members.length
    rw [he]
    simp only [ne_eq, decide_not]
    have hs := length_filter_split
      (fun m : Membership => decide (m.user = userId)) club.members
    omega
  · intro u1 hm1 hid
    rcases List.mem_map.mp hm1 with ⟨u, hu, rfl⟩
    by_cases hic : u.id = userId
    · rw [if_pos hic]
      simp [pullJoined, List.mem_filter]
    · rw [if_neg hic] at hid
      exact absurd hid hic
  · intro u1 hm1 hne
    rcases List.mem_map.mp hm1 with ⟨u, hu, rfl⟩
    by_cases hic : u.id = userId
    · rw [if_pos hic] at hne
      exact absurd hic (by simpa [pullJoined] using hne)
    · rw [if_neg hic]
      exact hu
  · have hnone : findMemberIdx userId (club.members.eraseIdx i) = none := by
      rw [he]
      exact (findMemberIdx_eq_none userId _).mpr (by
        intro m hm
        have := List.mem_filter.mp hm
        simpa using this.2)
    simp [leaveClub, hnone]

/-- C5 witness: leaving the fixture club removes user 5's single approved
membership and the back-reference, and leaving again fails with the
not-a-member response. -/
theorem leaveClub_removes_one_and_second_fails_witness :
    ∃ club1 users1,
      leaveClub fixClubLeave 5 fixLeaveUsers =
        .ok (club1, users1, [DocWrite.clubSave, DocWrite.userUpdate]) ∧
      club1.members = fixClubLeave.members.filter (fun m => m.user ≠ 5) ∧
      club1.members.length + 1 = fixClubLeave.members.length ∧
      (∀ u1 ∈ users1, u1.id = 5 → fixClubLeave.id ∉ u1.joinedClubs) ∧
      (∀ u1 ∈ users1, u1.id ≠ 5 → u1 ∈ fixLeaveUsers) ∧
      leaveClub club1 5 users1 =
        .error ⟨400, "You are not a member of this club"⟩ :=
  leaveClub_removes_one_and_second_fails fixClubLeave 5 fixLeaveUsers (by decide)

/-- C6 (amended): RequestJoin and RejectMember are single-document
operations (their trace is exactly one club save), but ApproveMember and
LeaveClub each issue TWO separate document writes — the club save followed
by a distinct user-document update — so the club document and the user's
joinedClubs back-reference are updated in two steps, not one. -/
theorem membership_ops_write_traces :
    (∀ club memberId users c1 us1 tr,
        approveMember club memberId users = .ok (c1, us1, tr) →
          tr = [DocWrite.clubSave, DocWrite.userUpdate]) ∧
    (∀ club userId users c1 us1 tr,
        leaveClub club userId users = .ok (c1, us1, tr) →
          tr = [DocWrite.clubSave, DocWrite.userUpdate]) ∧
    (∀ club userId fullName department year background newMemberId c1 tr,
        requestJoin club userId fullName department year background newMemberId =
            .ok (c1, tr) →
          tr = [DocWrite.clubSave]) ∧
    (∀ club memberId c1 tr,
        rejectMember club memberId = .ok (c1, tr) →
          tr = [DocWrite.clubSave]) := by
  refine ⟨?_, ?_, ?_, ?_⟩
  · intro club memberId users c1 us1 tr h
    cases hf : club.members.find? (fun m => m.id = memberId) <;>
      simp [approveMember, hf] at h
    exact h.2.2.symm
  · intro club userId users c1 us1 tr h
    cases hf : findMemberIdx userId club.members <;>
      simp [leaveClub, hf] at h
    exact h.2.2.symm
  · intro club userId fullName department year background newMemberId c1 tr h
    by_cases hval : (fullName = "" || department = "" || year = "") = true
    · simp [requestJoin, hval] at h
    · by_cases hact : club.status = "active"
      · cases hf : club.members.find? (fun m => m.user = userId) with
        | none =>
            simp [requestJoin, hval, hact, hf] at h
            exact h.2.symm
        | some m =>
            by_cases hst : m.status = "pending" <;>
              simp [requestJoin, hval, hact, hf, hst] at h
      · simp [requestJoin, hval, hact] at h
  · intro club memberId c1 tr h
    cases hf : club.members.find? (fun m => m.id = memberId) <;>
      simp [rejectMember, hf] at h
    exact h.2.symm

/-- C6 witness: on the pending-membership fixture, ApproveMember succeeds
and its trace is the two-write sequence club save then user update. -/
theorem membership_ops_write_traces_witness :
    approveMember fixClubPending 1 fixUsers =
      .ok (fixApprovedClub, fixApprovedUsers,
           [DocWrite.clubSave, DocWrite.userUpdate]) ∧
    [DocWrite.clubSave, DocWrite.userUpdate] =
      [DocWrite.clubSave, DocWrite.userUpdate] :=
  ⟨by decide,
   membership_ops_write_traces.1 fixClubPending 1 fixUsers
     fixApprovedClub fixApprovedUsers
     [DocWrite.clubSave, DocWrite.userUpdate] (by decide)⟩

/-- C6 counterexample: the claim that every logical transition is a single
document write is false — a successful ApproveMember issues two writes. -/
theorem membership_ops_single_write_refuted :
    ¬ (∀ club memberId users c1 us1 tr,
        approveMember club memberId users = .ok (c1, us1, tr) →
          tr.length ≤ 1) := by
  intro h
  have h2 := h fixClubPending 1 fixUsers fixApprovedClub fixApprovedUsers
    [DocWrite.clubSave, DocWrite.userUpdate] (by decide)
  exact absurd h2 (by decide)

/-- C1: a first CastVote by a user who has not voted in the election
increments the chosen candidate's votes and the election's totalVotes by
exactly one, leaves every other candidate's votes unchanged, and records
the election in the user's votedElections; after that, a second CastVote
by the same user for ANY candidate of the election fails with the Conflict
response and returns no updated state, so totalVotes and all candidate
counts stay as they were after the first vote. -/
theorem castVote_first_then_conflict
    (e : Election) (u : User) (candidateId : Nat) (c : Candidate)
    (hc : e.candidates.find? (fun x => x.id = candidateId) = some c)
    (hv : e.id ∉ u.votedElections) :
    ∃ e1 u1, castVote e u candidateId = .ok (e1, u1) ∧
      e1.totalVotes = e.totalVotes + 1 ∧
      List.Forall₂ (fun a b => b.id = a.id ∧
          b.votes = if a.id = candidateId then a.votes + 1 else a.votes)
        e.candidates e1.candidates ∧
      u1.votedElections = u.votedElections ++ [e.id] ∧
      ∀ cid2 c2, e1.candidates.find? (fun x => x.id = cid2) = some c2 →
        castVote e1 u1 cid2 =
          .error ⟨409, "You have already voted in this election"⟩ := by
  have hok : castVote e u candidateId =
      .ok ({ e with
              candidates := e.candidates.map (fun x =>
                if x.id = candidateId then { x with votes := x.votes + 1 } else x),
              totalVotes := e.totalVotes + 1 },
           { u with votedElections := u.votedElections ++ [e.id] }) := by
    simp [castVote, hc, hv]
  refine ⟨_, _, hok, rfl, ?_, rfl, ?_⟩
  · rw [List.forall₂_map_right_iff]
    rw [List.forall₂_same]
    intro a _
    by_cases h : a.id = candidateId <;> simp [h]
  · intro cid2 c2 hc2
    simp [castVote, hc2]

/-- C1 witness: voting for candidate 1 of the fixture election succeeds
with the incremented counts, and a repeat vote for either candidate by the
same user fails with the Conflict response. -/
theorem castVote_first_then_conflict_witness :
    ∃ e1 u1, castVote fixElection fixVoter 1 = .ok (e1, u1) ∧
      e1.totalVotes = fixElection.totalVotes + 1 ∧
      List.Forall₂ (fun a b => b.id = a.id ∧
          b.votes = if a.id = 1 then a.votes + 1 else a.votes)
        fixElection.candidates e1.candidates ∧
      u1.votedElections = fixVoter.votedElections ++ [fixElection.id] ∧
      ∀ cid2 c2, e1.candidates.find? (fun x => x.id = cid2) = some c2 →
        castVote e1 u1 cid2 =
          .error ⟨409, "You have already voted in this election"⟩ :=
  castVote_first_then_conflict fixElection fixVoter 1
    { id := 1, name := "X", votes := 0 } (by decide) (by decide)

/-- C8: handleCreateElection fails with the validation message whenever
fewer than two candidates were added; when it succeeds, the payload has
totalVotes = 0 and status Pending and carries the form's candidates
unchanged; and every candidate handleAddCandidate appends is initialised
with votes = 0, so all candidates of a created election start at zero. -/
theorem createElection_validates_and_initialises
    (form : NewElectionForm) (isAdmin : Bool) :
    (form.candidates.length < 2 →
      handleCreateElection form isAdmin =
        .error "At least two candidates are required") ∧
    (∀ d, handleCreateElection form isAdmin = .ok d →
      d.totalVotes = 0 ∧ d.status = "Pending" ∧ d.candidates = form.candidates) ∧
    (∀ prev nc now l, handleAddCandidate prev nc now = .ok l →
      ∃ c, l = prev ++ [c] ∧ c.votes = 0) := by
  refine ⟨?_, ?_, ?_⟩
  · intro h
    simp [handleCreateElection, h]
  · intro d hd
    by_cases h2 : form.candidates.length < 2
    · simp [handleCreateElection, h2] at hd
    · cases isAdmin with
      | false => simp [handleCreateElection, h2] at hd
      | true =>
          simp [handleCreateElection, h2] at hd
          exact ⟨hd ▸ rfl, hd ▸ rfl, hd ▸ rfl⟩
  · intro prev nc now l hl
    by_cases h : (nc.name = "" || nc.department = "" || nc.academicYear = "" ||
        nc.profileImage = "") = true
    · simp [handleAddCandidate, h] at hl
    · simp only [handleAddCandidate, if_neg h] at hl
      injection hl with hl
      exact ⟨_, hl.symm, rfl⟩

/-- C8 witness: a one-candidate form is rejected; the full fixture form
yields the Pending zero-vote payload; and an add-candidate call appends a
zero-vote candidate. -/
theorem createElection_validates_and_initialises_witness :
    handleCreateElection { fixForm with candidates := [] } true =
      .error "At least two candidates are required" ∧
    (fixElectionData.totalVotes = 0 ∧ fixElectionData.status = "Pending" ∧
      fixElectionData.candidates = fixForm.candidates) ∧
    ∃ c, fixAddList = [] ++ [c] ∧ c.votes = 0 :=
  ⟨(createElection_validates_and_initialises
      { fixForm with candidates := [] } true).1 (by decide),
   (createElection_validates_and_initialises fixForm true).2.1
      fixElectionData (by decide),
   (createElection_validates_and_initialises fixForm true).2.2 []
      { name := "Z", department := "CS", academicYear := "1st Year",
        profileImage := "z.png" } 123 fixAddList (by decide)⟩

/-- C9: the displayed tally ranks candidates by votes descending (the
ranked list is pairwise non-increasing in votes), is a permutation of the
candidate list, and is stable — for every vote value the candidates having
it keep their original insertion order — and on candidates A:3, B:5, C:5
inserted in that order the ranked result is B, C, A. -/
theorem rankCandidates_orders_votes_descending_stably :
    (∀ l : List Candidate,
        (rankCandidates l).Pairwise (fun a b => b.votes ≤ a.votes)) ∧
    (∀ l : List Candidate, List.Perm (rankCandidates l) l) ∧
    (∀ (l : List Candidate) (v : Nat),
        (rankCandidates l).filter (fun d => d.votes = v) =
          l.filter (fun d => d.votes = v)) ∧
    rankCandidates [{ id := 1, name := "A", votes := 3 },
                    { id := 2, name := "B", votes := 5 },
                    { id := 3, name := "C", votes := 5 }] =
      [{ id := 2, name := "B", votes := 5 },
       { id := 3, name := "C", votes := 5 },
       { id := 1, name := "A", votes := 3 }] :=
  ⟨rankCandidates_sorted, rankCandidates_perm, filter_rankCandidates, by decide⟩

/-- C7: the duplicate-name guard splices the requested name unescaped into
a regular expression, so a name containing a regex metacharacter evades
the case-insensitive uniqueness check: with club "a+b" present, creating
"A+B" — equal to "a+b" up to letter case — succeeds, leaving two clubs
whose names are case-insensitively equal, against the stated invariant. -/
theorem createClub_case_duplicate_slips_through :
    eqIgnoreCase fixReqUpper.name fixClubLower.name = true ∧
    createClub [fixClubLower] fixReqUpper 2 =
      .ok ([fixClubLower, fixCreatedUpper], fixCreatedUpper) ∧
    eqIgnoreCase fixCreatedUpper.name fixClubLower.name = true := by
  decide

/-- C10: whenever an admin create-club request succeeds, the created
club's status is active no matter what status value the request body
carried (the handler's outcome is identical for every supplied status),
and the created club is immediately join-eligible: a valid join request
against it succeeds. -/
theorem createClub_status_always_active
    (clubs : List Club) (req : CreateClubReq) (newId : Nat)
    (out : List Club × Club) (h : createClub clubs req newId = .ok out) :
    out.2.status = "active" ∧
    (∀ s, createClub clubs { req with status := s } newId =
        createClub clubs req newId) ∧
    (∀ userId fullName department year background newMemberId,
        fullName ≠ "" → department ≠ "" → year ≠ "" →
        ∃ r, requestJoin out.2 userId fullName department year
              background newMemberId = .ok r) := by
  by_cases hdup : (clubs.any (fun c => nameRegexMatches req.name c.name)) = true
  · simp [createClub, hdup] at h
  · simp only [createClub, hdup, Bool.false_eq_true, if_false] at h
    injection h with h
    refine ⟨?_, ?_, ?_⟩
    · rw [← h]
    · intro s
      cases req
      simp [createClub]
    · intro userId fullName department year background newMemberId hfn hdep hyr
      rw [← h]
      exact ⟨_, by simp [requestJoin, hfn, hdep, hyr]; rfl⟩

/-- C10 witness: a request asking for status pending_approval still yields
an active club, and user 9 can immediately join it. -/
theorem createClub_status_always_active_witness :
    fixCreatedN.status = "active" ∧
    (∀ s, createClub [] { fixReqStatus with status := s } 1 =
        createClub [] fixReqStatus 1) ∧
    (∀ userId fullName department year background newMemberId,
        fullName ≠ "" → department ≠ "" → year ≠ "" →
        ∃ r, requestJoin fixCreatedN userId fullName department year
              background newMemberId = .ok r) :=
  createClub_status_always_active [] fixReqStatus 1
    ([fixCreatedN], fixCreatedN) (by decide)

end Pro12
